import Mathlib

set_option maxRecDepth 100000

/-!
Shallow embedding of the threshold/profit evaluator of ChurnProfitInsight
(src/churn.py) together with the client-side recomputation that the page
injects over the same data.  Numeric values that the program holds in
floating point (probabilities, thresholds, business parameters, profits)
are modelled as exact rationals; a probability cell may additionally hold
NaN, which compares false against every threshold, exactly as the numpy
and JavaScript comparison does.  A raised Python exception is modelled as
the value none.
-/

/-- A floating-point probability cell of the y_proba array: either a
finite value, modelled as an exact rational, or NaN. -/
inductive PFloat where
  | val : ℚ → PFloat
  | nan : PFloat
  deriving DecidableEq, Repr

/-- The comparison p >= t performed by numpy in line 68 of src/churn.py
and by the injected script: NaN compared with anything is false. -/
def PFloat.cmpGE : PFloat → ℚ → Bool
  | .val q, t => decide (t ≤ q)
  | .nan, _ => false

/-- Line 68 of src/churn.py: y_pred = (y_proba >= threshold).astype(int). -/
def classify (y_proba : List PFloat) (threshold : ℚ) : List ℤ :=
  y_proba.map (fun p => if p.cmpGE threshold then 1 else 0)

/-- One cell of sklearn.metrics.confusion_matrix: the number of positions
carrying ground truth a and prediction b, over the zipped label pairs. -/
def countPair (pairs : List (ℤ × ℤ)) (a b : ℤ) : ℕ :=
  (pairs.filter (fun x => x.1 == a && x.2 == b)).length

/-- The label set sklearn.metrics.confusion_matrix works over when no
labels argument is given: the sorted distinct values occurring in
y_true or y_pred (sklearn.utils.multiclass.unique_labels). -/
def sortedLabels (y_true y_pred : List ℤ) : List ℤ :=
  ((y_true ++ y_pred).dedup).insertionSort (· ≤ ·)

/-- confusion_matrix(y_true, y_pred).ravel() from line 69 of
src/churn.py: the k-by-k count matrix over the sorted distinct labels,
flattened row-major.  Its size is the square of the number of distinct
labels, so the 4-way unpack in line 69 succeeds only when exactly two
distinct labels occur. -/
def cmRavel (y_true y_pred : List ℤ) : List ℕ :=
  ((sortedLabels y_true y_pred).map fun a =>
    (sortedLabels y_true y_pred).map fun b =>
      countPair (y_true.zip y_pred) a b).flatten

/-- The tuple returned by compute_profit in line 71 of src/churn.py. -/
structure ProfitResult where
  profit : ℚ
  tp : ℕ
  fp : ℕ
  fn : ℕ
  tn : ℕ
  deriving DecidableEq, Repr

/-- Lines 67-71 of src/churn.py.  The classification step is line 68; the
length guard models check_consistent_length inside
sklearn.metrics.confusion_matrix, which raises ValueError on mismatched
lengths; the 4-way match models the unpack tn, fp, fn, tp of line 69,
which raises ValueError unless the raveled matrix has exactly four
entries; line 70 is the profit formula.  none models a raised
exception. -/
def compute_profit (y_true : List ℤ) (y_proba : List PFloat)
    (threshold ltv cost : ℚ) : Option ProfitResult :=
  if y_true.length ≠ (classify y_proba threshold).length then none
  else
    match cmRavel y_true (classify y_proba threshold) with
    | [tn, fp, fn, tp] =>
        some ⟨(tp : ℚ) * (ltv - cost) - (fp : ℚ) * cost - (fn : ℚ) * ltv,
              tp, fp, fn, tn⟩
    | _ => none

/-- np.linspace a b n: n evenly spaced samples from a to b, endpoints
included (for n = 1 the single sample a; for n = 0 no samples). -/
def linspace (a b : ℚ) (n : ℕ) : List ℚ :=
  (List.range n).map (fun (i : ℕ) => a + (i : ℚ) * ((b - a) / ((n : ℚ) - 1)))

/-- The loop body of compute_all_profits (lines 77-79 of src/churn.py):
successive compute_profit calls whose profits are collected; a raised
exception in any iteration propagates out of the whole call. -/
def profitsLoop (y_true : List ℤ) (y_proba : List PFloat) (ltv cost : ℚ) :
    List ℚ → Option (List ℚ)
  | [] => some []
  | t :: ts => do
      let r ← compute_profit y_true y_proba t ltv cost
      let rest ← profitsLoop y_true y_proba ltv cost ts
      pure (r.profit :: rest)

/-- Lines 73-80 of src/churn.py: thresholds = np.linspace(0.05, 0.95, 50),
profits collected threshold by threshold, returned as the pair of
parallel lists. -/
def compute_all_profits (y_true : List ℤ) (y_proba : List PFloat)
    (ltv cost : ℚ) : Option (List ℚ × List ℚ) := do
  let profits ← profitsLoop y_true y_proba ltv cost (linspace (1/20) (19/20) 50)
  pure (linspace (1/20) (19/20) 50, profits)

/-- Line 187 of src/churn.py: tp / (tp + fp) if (tp + fp) > 0 else 0.0. -/
def prec_of (tp fp : ℕ) : ℚ :=
  if tp + fp > 0 then (tp : ℚ) / ((tp : ℚ) + (fp : ℚ)) else 0

/-- Line 188 of src/churn.py: tp / (tp + fn) if (tp + fn) > 0 else 0.0. -/
def rec_of (tp fn : ℕ) : ℚ :=
  if tp + fn > 0 then (tp : ℚ) / ((tp : ℚ) + (fn : ℚ)) else 0

/-- Lines 183-190 of src/churn.py: the precision values collected over
np.linspace(0.1, 0.9, 30); an exception in compute_profit propagates. -/
def precision_list (y_true : List ℤ) (y_proba : List PFloat)
    (ltv cost : ℚ) : Option (List ℚ) :=
  (linspace (1/10) (9/10) 30).mapM (fun t =>
    (compute_profit y_true y_proba t ltv cost).map (fun r => prec_of r.tp r.fp))

/-- The four counters of the injected updateBulkMetrics override
(lines 905-942 of src/churn.py, inside the f-string script block). -/
structure BulkState where
  tp : ℕ
  fp : ℕ
  fn : ℕ
  tn : ℕ
  deriving DecidableEq, Repr

/-- One iteration of the injected loop: pred = yProba[i] >= threshold
? 1 : 0, actual = yTrue[i], and the if / else-if chain incrementing
exactly the counter whose label pair matches. -/
def bulkStep (threshold : ℚ) (s : BulkState) (x : ℤ × PFloat) : BulkState :=
  let pred : ℤ := if x.2.cmpGE threshold then 1 else 0
  if pred = 1 ∧ x.1 = 1 then { s with tp := s.tp + 1 }
  else if pred = 1 ∧ x.1 = 0 then { s with fp := s.fp + 1 }
  else if pred = 0 ∧ x.1 = 1 then { s with fn := s.fn + 1 }
  else if pred = 0 ∧ x.1 = 0 then { s with tn := s.tn + 1 }
  else s

/-- The injected updateBulkMetrics override: the loop over the
index-aligned yTrue / yProba pairs starting from zeroed counters,
followed by profit = tp * (ltv - cost) - fp * cost - fn * ltv. -/
def updateBulkMetrics (y_true : List ℤ) (y_proba : List PFloat)
    (threshold ltv cost : ℚ) : BulkState × ℚ :=
  let s := (y_true.zip y_proba).foldl (bulkStep threshold) ⟨0, 0, 0, 0⟩
  (s, (s.tp : ℚ) * (ltv - cost) - (s.fp : ℚ) * cost - (s.fn : ℚ) * ltv)

/-! Helper lemmas. -/

theorem classify_subset01 {y_proba : List PFloat} {t : ℚ} :
    ∀ x ∈ classify y_proba t, x = 0 ∨ x = 1 := by
  intro x hx
  rcases List.mem_map.1 hx with ⟨p, _, hp⟩
  by_cases hc : p.cmpGE t = true <;> simp [hc] at hp <;> omega

theorem classify_length (y_proba : List PFloat) (t : ℚ) :
    (classify y_proba t).length = y_proba.length :=
  List.length_map _ _

/-- Counting over the raw (label, probability) pairs: the number of
positions with ground truth a whose comparison against the threshold
gives b.  Both the sklearn count at labels (a, 1) / (a, 0) and the
injected scripts counters reduce to this. -/
def jsCount (l : List (ℤ × PFloat)) (t : ℚ) (a : ℤ) (b : Bool) : ℕ :=
  (l.filter (fun x => x.1 == a && x.2.cmpGE t == b)).length

theorem countPair_zip_classify (t : ℚ) (a : ℤ) (bz : Bool)
    (yt : List ℤ) (yp : List PFloat) :
    countPair (yt.zip (classify yp t)) a (if bz then 1 else 0) =
    jsCount (yt.zip yp) t a bz := by
  have hzip : yt.zip (classify yp t) =
      (yt.zip yp).map (Prod.map id (fun p => if p.cmpGE t then 1 else 0)) :=
    List.zip_map_right _ _ _
  rw [countPair, hzip, List.filter_map, List.length_map, jsCount]
  congr 1
  apply List.filter_congr
  intro x _
  rcases x with ⟨u, p⟩
  by_cases hc : p.cmpGE t = true <;> cases bz <;>
    simp [Function.comp, Prod.map, hc]

theorem countPair_partition :
    ∀ (l : List (ℤ × ℤ)),
      (∀ x ∈ l, (x.1 = 0 ∨ x.1 = 1) ∧ (x.2 = 0 ∨ x.2 = 1)) →
      countPair l 0 0 + countPair l 0 1 + countPair l 1 0 + countPair l 1 1 =
        l.length := by
  intro l
  induction l with
  | nil => intro _; rfl
  | cons x l ih =>
    intro h
    have hx := h x (by simp)
    have ih2 := ih (fun y hy => h y (by simp [hy]))
    rcases hx with ⟨h1 | h1, h2 | h2⟩ <;>
      simp [countPair, List.filter_cons, h1, h2] at ih2 ⊢ <;> omega

theorem sorted_nodup01 (s : List ℤ) (hs : List.Sorted (· ≤ ·) s)
    (hn : s.Nodup) (hm : ∀ x ∈ s, x = 0 ∨ x = 1) :
    s = [] ∨ s = [0] ∨ s = [1] ∨ s = [0, 1] := by
  rcases s with _ | ⟨a, _ | ⟨b, rest⟩⟩
  · exact Or.inl rfl
  · rcases hm a (by simp) with rfl | rfl
    · exact Or.inr (Or.inl rfl)
    · exact Or.inr (Or.inr (Or.inl rfl))
  · have ha := hm a (by simp)
    have hb := hm b (by simp)
    have hab : a ≤ b := (List.sorted_cons.1 hs).1 b (by simp)
    have hne : a ≠ b := by
      intro h
      exact (List.nodup_cons.1 hn).1 (by simp [h])
    rcases rest with _ | ⟨c, rest2⟩
    · rcases ha with rfl | rfl <;> rcases hb with rfl | rfl <;> simp_all
    · have hc := hm c (by simp)
      have hac : a ≠ c := by
        intro h
        exact (List.nodup_cons.1 hn).1 (by simp [h])
      have hbc : b ≠ c := by
        intro h
        exact (List.nodup_cons.1 (List.nodup_cons.1 hn).2).1 (by simp [h])
      rcases ha with rfl | rfl <;> rcases hb with rfl | rfl <;>
        rcases hc with rfl | rfl <;> simp_all

theorem sortedLabels_sorted (yt yp' : List ℤ) :
    List.Sorted (· ≤ ·) (sortedLabels yt yp') :=
  List.sorted_insertionSort _ _

theorem sortedLabels_nodup (yt yp' : List ℤ) : (sortedLabels yt yp').Nodup :=
  ((List.perm_insertionSort _ _).nodup_iff).2 (List.nodup_dedup _)

theorem mem_sortedLabels {yt yp' : List ℤ} {x : ℤ} :
    x ∈ sortedLabels yt yp' ↔ x ∈ yt ∨ x ∈ yp' := by
  rw [sortedLabels, (List.perm_insertionSort _ _).mem_iff, List.mem_dedup,
    List.mem_append]

theorem sortedLabels_shape {yt yp' : List ℤ}
    (ht : ∀ x ∈ yt, x = 0 ∨ x = 1) (hp : ∀ x ∈ yp', x = 0 ∨ x = 1) :
    sortedLabels yt yp' = [] ∨ sortedLabels yt yp' = [0] ∨
      sortedLabels yt yp' = [1] ∨ sortedLabels yt yp' = [0, 1] :=
  sorted_nodup01 _ (sortedLabels_sorted ..) (sortedLabels_nodup ..)
    (fun x hx => (mem_sortedLabels.1 hx).elim (ht x) (hp x))

theorem sortedLabels_eq01 {yt yp' : List ℤ}
    (ht : ∀ x ∈ yt, x = 0 ∨ x = 1) (hp : ∀ x ∈ yp', x = 0 ∨ x = 1)
    (h0 : (0 : ℤ) ∈ yt ∨ (0 : ℤ) ∈ yp')
    (h1 : (1 : ℤ) ∈ yt ∨ (1 : ℤ) ∈ yp') :
    sortedLabels yt yp' = [0, 1] := by
  have h0m : (0 : ℤ) ∈ sortedLabels yt yp' := mem_sortedLabels.2 h0
  have h1m : (1 : ℤ) ∈ sortedLabels yt yp' := mem_sortedLabels.2 h1
  rcases sortedLabels_shape ht hp with h | h | h | h <;> rw [h] at h0m h1m ⊢ <;>
    simp_all

theorem cmRavel_of_labels {yt yp' : List ℤ}
    (h : sortedLabels yt yp' = [0, 1]) :
    cmRavel yt yp' =
      [countPair (yt.zip yp') 0 0, countPair (yt.zip yp') 0 1,
       countPair (yt.zip yp') 1 0, countPair (yt.zip yp') 1 1] := by
  simp only [cmRavel, h]
  rfl

theorem cmRavel_of_labels_nil {yt yp' : List ℤ}
    (h : sortedLabels yt yp' = []) : cmRavel yt yp' = [] := by
  simp only [cmRavel, h]
  rfl

theorem cmRavel_of_labels_single {yt yp' : List ℤ} {a : ℤ}
    (h : sortedLabels yt yp' = [a]) :
    cmRavel yt yp' = [countPair (yt.zip yp') a a] := by
  simp only [cmRavel, h]
  rfl

theorem compute_profit_none_len {yt : List ℤ} {yp : List PFloat}
    {t ltv cost : ℚ} (hlen : yt.length ≠ yp.length) :
    compute_profit yt yp t ltv cost = none := by
  simp only [compute_profit, classify_length]
  rw [if_pos hlen]

theorem compute_profit_some {yt : List ℤ} {yp : List PFloat}
    {t ltv cost : ℚ} (hlen : yt.length = yp.length)
    (h01 : sortedLabels yt (classify yp t) = [0, 1]) :
    compute_profit yt yp t ltv cost =
      some ⟨(countPair (yt.zip (classify yp t)) 1 1 : ℚ) * (ltv - cost) -
              (countPair (yt.zip (classify yp t)) 0 1 : ℚ) * cost -
              (countPair (yt.zip (classify yp t)) 1 0 : ℚ) * ltv,
            countPair (yt.zip (classify yp t)) 1 1,
            countPair (yt.zip (classify yp t)) 0 1,
            countPair (yt.zip (classify yp t)) 1 0,
            countPair (yt.zip (classify yp t)) 0 0⟩ := by
  have hlen2 : ¬yt.length ≠ (classify yp t).length := by
    rw [classify_length]; exact fun h => h hlen
  simp only [compute_profit]
  rw [if_neg hlen2, cmRavel_of_labels h01]

theorem compute_profit_none_nil {yt : List ℤ} {yp : List PFloat}
    {t ltv cost : ℚ} (hs : sortedLabels yt (classify yp t) = []) :
    compute_profit yt yp t ltv cost = none := by
  simp only [compute_profit]
  split
  · rfl
  · rw [cmRavel_of_labels_nil hs]

theorem compute_profit_none_single {yt : List ℤ} {yp : List PFloat}
    {t ltv cost : ℚ} {a : ℤ} (hs : sortedLabels yt (classify yp t) = [a]) :
    compute_profit yt yp t ltv cost = none := by
  simp only [compute_profit]
  split
  · rfl
  · rw [cmRavel_of_labels_single hs]

theorem compute_profit_some_inv {yt : List ℤ} {yp : List PFloat}
    {t ltv cost : ℚ} {r : ProfitResult}
    (ht : ∀ x ∈ yt, x = 0 ∨ x = 1)
    (h : compute_profit yt yp t ltv cost = some r) :
    yt.length = yp.length ∧ sortedLabels yt (classify yp t) = [0, 1] ∧
      r = ⟨(countPair (yt.zip (classify yp t)) 1 1 : ℚ) * (ltv - cost) -
             (countPair (yt.zip (classify yp t)) 0 1 : ℚ) * cost -
             (countPair (yt.zip (classify yp t)) 1 0 : ℚ) * ltv,
           countPair (yt.zip (classify yp t)) 1 1,
           countPair (yt.zip (classify yp t)) 0 1,
           countPair (yt.zip (classify yp t)) 1 0,
           countPair (yt.zip (classify yp t)) 0 0⟩ := by
  by_cases hlen : yt.length = yp.length
  · rcases sortedLabels_shape ht
        (@classify_subset01 yp t) with hs | hs | hs | hs
    · rw [compute_profit_none_nil hs] at h; cases h
    · rw [compute_profit_none_single hs] at h; cases h
    · rw [compute_profit_none_single hs] at h; cases h
    · refine ⟨hlen, hs, ?_⟩
      rw [compute_profit_some hlen hs] at h
      exact (Option.some.inj h).symm
  · rw [compute_profit_none_len hlen] at h; cases h

theorem foldl_bulkStep (t : ℚ) :
    ∀ (l : List (ℤ × PFloat)) (s : BulkState),
      l.foldl (bulkStep t) s =
        ⟨s.tp + jsCount l t 1 true, s.fp + jsCount l t 0 true,
         s.fn + jsCount l t 1 false, s.tn + jsCount l t 0 false⟩ := by
  intro l
  induction l with
  | nil =>
    intro s
    cases s
    simp [jsCount]
  | cons x l ih =>
    intro s
    rw [List.foldl_cons, ih]
    rcases x with ⟨u, p⟩
    by_cases hu1 : u = 1 <;> by_cases hu0 : u = 0 <;>
      by_cases hc : p.cmpGE t = true <;>
      simp [bulkStep, jsCount, List.filter_cons, hc, hu0, hu1,
        BulkState.mk.injEq] <;>
      omega

theorem PFloat.cmpGE_anti {p : PFloat} {t1 t2 : ℚ} (h12 : t1 ≤ t2)
    (h : p.cmpGE t2 = true) : p.cmpGE t1 = true := by
  cases p with
  | val q =>
    simp only [cmpGE, decide_eq_true_eq] at h ⊢
    exact le_trans h12 h
  | nan => simp [cmpGE] at h

theorem jsCount_anti {l : List (ℤ × PFloat)} {t1 t2 : ℚ} (h12 : t1 ≤ t2)
    (a : ℤ) : jsCount l t2 a true ≤ jsCount l t1 a true := by
  apply List.Sublist.length_le
  apply List.monotone_filter_right
  intro x hx
  simp only [Bool.and_eq_true, beq_iff_eq] at hx ⊢
  exact ⟨hx.1, by rw [PFloat.cmpGE_anti h12 hx.2]⟩

theorem jsCount_pos_eq_zero_of_lt {yt : List ℤ} {ps : List ℚ} {t : ℚ}
    (hall : ∀ q ∈ ps, q < t) (a : ℤ) :
    jsCount (yt.zip (ps.map PFloat.val)) t a true = 0 := by
  rw [jsCount, List.length_eq_zero, List.filter_eq_nil_iff]
  rintro ⟨u, p⟩ hx
  have hp : p ∈ ps.map PFloat.val := (List.of_mem_zip hx).2
  rcases List.mem_map.1 hp with ⟨q, hq, rfl⟩
  simp [PFloat.cmpGE, not_le.2 (hall q hq)]

theorem classify_all_neg {ps : List ℚ} {t : ℚ} (hall : ∀ q ∈ ps, q < t) :
    classify (ps.map PFloat.val) t = List.replicate ps.length 0 := by
  rw [List.eq_replicate_iff]
  refine ⟨by rw [classify_length, List.length_map], ?_⟩
  intro b hb
  rcases List.mem_map.1 hb with ⟨p, hp, hbp⟩
  rcases List.mem_map.1 hp with ⟨q, hq, rfl⟩
  rw [← hbp]
  simp [PFloat.cmpGE, not_le.2 (hall q hq)]

theorem profitsLoop_some {yt : List ℤ} {yp : List PFloat} {ltv cost : ℚ} :
    ∀ ts : List ℚ,
      (∀ u ∈ ts, ∃ r, compute_profit yt yp u ltv cost = some r) →
      ∃ ps, profitsLoop yt yp ltv cost ts = some ps ∧ ps.length = ts.length := by
  intro ts
  induction ts with
  | nil => intro _; exact ⟨[], rfl, rfl⟩
  | cons t ts ih =>
    intro h
    rcases h t (by simp) with ⟨r, hr⟩
    rcases ih (fun u hu => h u (by simp [hu])) with ⟨ps, hps, hlen⟩
    exact ⟨r.profit :: ps, by simp [profitsLoop, hr, hps], by simp [hlen]⟩

theorem linspace_length (a b : ℚ) (n : ℕ) : (linspace a b n).length = n :=
  (List.length_map _ _).trans (List.length_range _)

theorem compute_all_profits_some {yt : List ℤ} {yp : List PFloat}
    {ltv cost : ℚ}
    (h : ∀ u ∈ linspace (1/20) (19/20) 50,
      ∃ r, compute_profit yt yp u ltv cost = some r) :
    ∃ ps, compute_all_profits yt yp ltv cost =
        some (linspace (1/20) (19/20) 50, ps) ∧ ps.length = 50 := by
  rcases profitsLoop_some _ h with ⟨ps, hps, hlen⟩
  refine ⟨ps, ?_, by rw [hlen, linspace_length]⟩
  simp only [compute_all_profits]
  rw [hps]
  rfl

/-! Claim theorems. -/

/-- C1 (amended): whenever both label values 0 and 1 occur among the
ground-truth entries and the predictions, compute_profit returns
tp * (ltv - cost) - fp * cost - fn * ltv, where tp, fp, fn, tn are the
confusion counts at the threshold; and the concrete scenario
ground_truth = [1,0,1,0], probability = [0.9,0.8,0.3,0.1], t = 0.5,
ltv = 1000, cost = 100 yields counts tp = fp = fn = tn = 1 and profit
-200.  (The unamended universal claim fails on single-class inputs,
where the 4-way unpack of the raveled confusion matrix raises.) -/
theorem C1_profit_formula :
    (∀ (yt : List ℤ) (yp : List PFloat) (t ltv cost : ℚ),
      (∀ x ∈ yt, x = 0 ∨ x = 1) → yt.length = yp.length →
      ((0 : ℤ) ∈ yt ∨ (0 : ℤ) ∈ classify yp t) →
      ((1 : ℤ) ∈ yt ∨ (1 : ℤ) ∈ classify yp t) →
      compute_profit yt yp t ltv cost =
        some ⟨(countPair (yt.zip (classify yp t)) 1 1 : ℚ) * (ltv - cost) -
                (countPair (yt.zip (classify yp t)) 0 1 : ℚ) * cost -
                (countPair (yt.zip (classify yp t)) 1 0 : ℚ) * ltv,
              countPair (yt.zip (classify yp t)) 1 1,
              countPair (yt.zip (classify yp t)) 0 1,
              countPair (yt.zip (classify yp t)) 1 0,
              countPair (yt.zip (classify yp t)) 0 0⟩) ∧
    compute_profit [1, 0, 1, 0]
        [.val (9/10), .val (8/10), .val (3/10), .val (1/10)] (1/2) 1000 100 =
      some ⟨-200, 1, 1, 1, 1⟩ := by
  constructor
  · intro yt yp t ltv cost ht hlen h0 h1
    exact compute_profit_some hlen
      (sortedLabels_eq01 ht (@classify_subset01 yp t) h0 h1)
  · with_unfolding_all decide

/-- C1 witness: the general part of the amended claim applied to a
concrete two-customer input. -/
theorem C1_profit_formula_witness :
    compute_profit [1, 0] [.val (7/10), .val (2/10)] (1/2) 10 1 =
      some ⟨9, 1, 0, 0, 1⟩ := by
  rw [C1_profit_formula.1 [1, 0] [.val (7/10), .val (2/10)] (1/2) 10 1
    (by decide) (by decide)
    (Or.inl (by decide)) (Or.inl (by decide))]
  with_unfolding_all decide

/-- C1 counterexample: for the {0,1}-valued ground truth [1] and the
[0,1]-valued probability array [0.9] at threshold 0.5, compute_profit
raises (the raveled confusion matrix has a single entry, so the 4-way
unpack fails) instead of returning the claimed profit value. -/
theorem C1_counterexample :
    compute_profit [1] [.val (9/10)] (1/2) 1000 100 = none := by
  with_unfolding_all decide

/-- C5 (amended): mismatched array lengths make compute_profit raise
(modelled as none) before producing numbers, but the error is the
ValueError raised inside sklearn confusion_matrix after the
classification step, not a dedicated InvalidInputError; and non-finite
probabilities are not rejected at all: a NaN probability compares false
against the threshold, is classified 0, and compute_profit silently
returns counts and a profit. -/
theorem C5_no_input_validation :
    (∀ (yt : List ℤ) (yp : List PFloat) (t ltv cost : ℚ),
      yt.length ≠ yp.length → compute_profit yt yp t ltv cost = none) ∧
    compute_profit [0, 1] [.nan, .val (9/10)] (1/2) 1000 100 =
      some ⟨900, 1, 0, 0, 1⟩ := by
  constructor
  · intro yt yp t ltv cost hlen
    exact compute_profit_none_len hlen
  · with_unfolding_all decide

/-- C5 witness: the mismatched-length part applied to a concrete
input. -/
theorem C5_no_input_validation_witness :
    compute_profit [0] [] (1/2) 1000 100 = none :=
  C5_no_input_validation.1 [0] [] (1/2) 1000 100 (by decide)

/-- C5 counterexample: an input whose probability array contains the
non-finite value NaN, on which compute_profit silently returns numbers
(NaN is classified negative) instead of failing with an
InvalidInputError. -/
theorem C5_counterexample :
    compute_profit [0, 1] [.nan, .val (9/10)] (3/10) 500 50 =
      some ⟨450, 1, 0, 0, 1⟩ := by
  with_unfolding_all decide

/-- C6 (amended): for the empty input and any threshold, compute_profit
raises (the raveled confusion matrix of the empty label set has no
entries, so the 4-way unpack fails) rather than returning four zero
counts. -/
theorem C6_empty_input_raises (t ltv cost : ℚ) :
    compute_profit [] [] t ltv cost = none := rfl

/-- C6 counterexample: on the empty input at threshold 0.5 the code
raises (none) whereas the claim demands a successful result with four
zero counts. -/
theorem C6_counterexample :
    compute_profit [] [] (1/2) 1000 100 = none := by
  with_unfolding_all decide

/-- C2 (confirmed): classification at a threshold is a total function on
any finite array of (finite-valued) probabilities and any rational
threshold: the output always exists, has the length of the input, and
its i-th entry is 1 exactly when probability i is at least the
threshold, and 0 otherwise.  No error case exists. -/
theorem C2_classify_total (ps : List ℚ) (t : ℚ) :
    (classify (ps.map PFloat.val) t).length = ps.length ∧
    ∀ i : ℕ, (classify (ps.map PFloat.val) t)[i]? =
      ps[i]?.map (fun p => if t ≤ p then (1 : ℤ) else 0) := by
  constructor
  · rw [classify_length, List.length_map]
  · intro i
    rw [classify, List.getElem?_map, List.getElem?_map]
    cases hp : ps[i]? with
    | none => rfl
    | some p =>
      by_cases h : t ≤ p <;> simp [PFloat.cmpGE, h]

/-- C3 (confirmed): whenever compute_profit returns confusion counts for
a {0,1}-valued ground truth, the four counts (which are non-negative by
type) sum to the population size, the common length of the input
arrays. -/
theorem C3_counts_sum (yt : List ℤ) (yp : List PFloat) (t ltv cost : ℚ)
    (r : ProfitResult) (ht : ∀ x ∈ yt, x = 0 ∨ x = 1)
    (h : compute_profit yt yp t ltv cost = some r) :
    r.tp + r.fp + r.fn + r.tn = yt.length := by
  rcases compute_profit_some_inv ht h with ⟨hlen, _, rfl⟩
  have hmem : ∀ x ∈ yt.zip (classify yp t),
      (x.1 = 0 ∨ x.1 = 1) ∧ (x.2 = 0 ∨ x.2 = 1) := by
    rintro ⟨u, v⟩ hx
    exact ⟨ht u (List.of_mem_zip hx).1,
      classify_subset01 v (List.of_mem_zip hx).2⟩
  have hpart := countPair_partition _ hmem
  have hzlen : (yt.zip (classify yp t)).length = yt.length := by
    rw [List.length_zip, classify_length, ← hlen, Nat.min_self]
  rw [hzlen] at hpart
  simp only []
  omega

/-- C3 witness: the sum property at the concrete four-customer
scenario. -/
theorem C3_counts_sum_witness :
    (ProfitResult.mk (-200) 1 1 1 1).tp + (ProfitResult.mk (-200) 1 1 1 1).fp +
      (ProfitResult.mk (-200) 1 1 1 1).fn + (ProfitResult.mk (-200) 1 1 1 1).tn =
    ([1, 0, 1, 0] : List ℤ).length :=
  C3_counts_sum [1, 0, 1, 0]
    [.val (9/10), .val (8/10), .val (3/10), .val (1/10)] (1/2) 1000 100
    (ProfitResult.mk (-200) 1 1 1 1) (by decide)
    (by with_unfolding_all decide)

/-- C4 (confirmed): with the ground truth and probability arrays fixed,
whenever compute_profit produces counts at two thresholds t1 < t2, the
true-positive count at t1 is at least the true-positive count at t2,
and likewise for the false-positive count: both are non-increasing as
the threshold rises. -/
theorem C4_tp_fp_antitone (yt : List ℤ) (yp : List PFloat)
    (t1 t2 ltv cost : ℚ) (r1 r2 : ProfitResult)
    (ht : ∀ x ∈ yt, x = 0 ∨ x = 1) (h12 : t1 < t2)
    (h1 : compute_profit yt yp t1 ltv cost = some r1)
    (h2 : compute_profit yt yp t2 ltv cost = some r2) :
    r2.tp ≤ r1.tp ∧ r2.fp ≤ r1.fp := by
  rcases compute_profit_some_inv ht h1 with ⟨_, _, rfl⟩
  rcases compute_profit_some_inv ht h2 with ⟨_, _, rfl⟩
  have e1 := countPair_zip_classify t1 1 true yt yp
  have e2 := countPair_zip_classify t2 1 true yt yp
  have e3 := countPair_zip_classify t1 0 true yt yp
  have e4 := countPair_zip_classify t2 0 true yt yp
  simp only [if_pos] at e1 e2 e3 e4
  simp only []
  rw [e1, e2, e3, e4]
  exact ⟨jsCount_anti (le_of_lt h12) 1, jsCount_anti (le_of_lt h12) 0⟩

/-- C4 witness: both counts are produced and compared at the thresholds
0.3 < 0.6 on a concrete input (the false-positive count drops from 1 to
0). -/
theorem C4_tp_fp_antitone_witness :
    (ProfitResult.mk 900 1 0 0 1).tp ≤ (ProfitResult.mk 800 1 1 0 0).tp ∧
    (ProfitResult.mk 900 1 0 0 1).fp ≤ (ProfitResult.mk 800 1 1 0 0).fp :=
  C4_tp_fp_antitone [1, 0] [.val (9/10), .val (4/10)] (3/10) (6/10) 1000 100
    (ProfitResult.mk 800 1 1 0 0) (ProfitResult.mk 900 1 0 0 1)
    (by decide) (by with_unfolding_all decide)
    (by with_unfolding_all decide) (by with_unfolding_all decide)

theorem countPair_classify_one (t : ℚ) (a : ℤ) (yt : List ℤ)
    (yp : List PFloat) :
    countPair (yt.zip (classify yp t)) a 1 = jsCount (yt.zip yp) t a true := by
  simpa using countPair_zip_classify t a true yt yp

theorem countPair_classify_zero (t : ℚ) (a : ℤ) (yt : List ℤ)
    (yp : List PFloat) :
    countPair (yt.zip (classify yp t)) a 0 = jsCount (yt.zip yp) t a false := by
  simpa using countPair_zip_classify t a false yt yp

/-- C7 (amended): for every threshold strictly above every (finite)
probability value in the array, every customer is classified negative,
and therefore any counts compute_profit produces have tp = 0 and
fp = 0.  (At threshold exactly 1 the claim fails: a customer with
probability exactly 1 is classified positive, because classification
uses a non-strict comparison.) -/
theorem C7_above_max_all_negative (yt : List ℤ) (ps : List ℚ)
    (t ltv cost : ℚ) (ht : ∀ x ∈ yt, x = 0 ∨ x = 1)
    (hall : ∀ q ∈ ps, q < t) :
    classify (ps.map PFloat.val) t = List.replicate ps.length 0 ∧
    ∀ r, compute_profit yt (ps.map PFloat.val) t ltv cost = some r →
      r.tp = 0 ∧ r.fp = 0 := by
  refine ⟨classify_all_neg hall, ?_⟩
  intro r hr
  rcases compute_profit_some_inv ht hr with ⟨_, _, rfl⟩
  simp only []
  rw [countPair_classify_one t 1 yt (ps.map PFloat.val),
    countPair_classify_one t 0 yt (ps.map PFloat.val),
    jsCount_pos_eq_zero_of_lt hall 1, jsCount_pos_eq_zero_of_lt hall 0]
  exact ⟨rfl, rfl⟩

/-- C7 witness: at threshold 0.4, above both probabilities 0.3 and 0.2,
the prediction vector is all zeros and the produced counts have
tp = fp = 0. -/
theorem C7_above_max_all_negative_witness :
    classify (([3/10, 2/10] : List ℚ).map PFloat.val) (2/5) =
      List.replicate 2 0 ∧
    ((ProfitResult.mk (-1000) 0 0 1 1).tp = 0 ∧
      (ProfitResult.mk (-1000) 0 0 1 1).fp = 0) := by
  have h := C7_above_max_all_negative [1, 0] [3/10, 2/10] (2/5) 1000 100
    (by decide) (by with_unfolding_all decide)
  exact ⟨h.1, h.2 (ProfitResult.mk (-1000) 0 0 1 1)
    (by with_unfolding_all decide)⟩

/-- C7 counterexample: at threshold exactly 1, a customer with
probability exactly 1 is classified positive (prediction 1, not 0), and
on ground truth [0, 1] with probabilities [1, 0.5] the produced
false-positive count is 1, not 0. -/
theorem C7_counterexample :
    classify [PFloat.val 1] 1 = [1] ∧
    compute_profit [0, 1] [PFloat.val 1, PFloat.val (1/2)] 1 1000 100 =
      some ⟨-1100, 0, 1, 1, 0⟩ := by
  with_unfolding_all decide

/-- C8 (amended): when both label values 0 and 1 occur among the ground
truth and the predictions combined, compute_profit succeeds even when
some confusion classes never occur (their counts are simply zero); and
precision and recall are defined as 0 by convention when their
denominator class is empty (tp + fp = 0, resp. tp + fn = 0), never
raising.  (When the ground truth and the predictions together carry
only a single label value, the unamended claim fails: the 4-way unpack
raises.) -/
theorem C8_degenerate_counts :
    (∀ (yt : List ℤ) (yp : List PFloat) (t ltv cost : ℚ),
      (∀ x ∈ yt, x = 0 ∨ x = 1) → yt.length = yp.length →
      ((0 : ℤ) ∈ yt ∨ (0 : ℤ) ∈ classify yp t) →
      ((1 : ℤ) ∈ yt ∨ (1 : ℤ) ∈ classify yp t) →
      ∃ r, compute_profit yt yp t ltv cost = some r) ∧
    (∀ tp fp : ℕ, tp + fp = 0 → prec_of tp fp = 0) ∧
    (∀ tp fn : ℕ, tp + fn = 0 → rec_of tp fn = 0) := by
  refine ⟨?_, ?_, ?_⟩
  · intro yt yp t ltv cost ht hlen h0 h1
    exact ⟨_, compute_profit_some hlen
      (sortedLabels_eq01 ht (@classify_subset01 yp t) h0 h1)⟩
  · intro tp fp h
    rw [prec_of, if_neg (by omega : ¬tp + fp > 0)]
  · intro tp fn h
    rw [rec_of, if_neg (by omega : ¬tp + fn > 0)]

/-- C8 witness: a valid input on which the fn and tn classes never occur
still succeeds, and precision from an empty denominator class is 0. -/
theorem C8_degenerate_counts_witness :
    (compute_profit [0, 1] [.val (1/10), .val (9/10)] (1/2) 500 50).isSome =
      true ∧ prec_of 0 0 = 0 := by
  obtain ⟨r, hr⟩ := C8_degenerate_counts.1 [0, 1] [.val (1/10), .val (9/10)]
    (1/2) 500 50 (by decide) (by decide) (Or.inl (by decide))
    (Or.inl (by decide))
  exact ⟨by rw [hr]; rfl, C8_degenerate_counts.2.1 0 0 rfl⟩

/-- C8 counterexample: on the valid input with ground truth [0] and
probability [0.1] at threshold 0.5, the tp, fp and fn classes never
occur and the computation raises (none) instead of succeeding with
those counts equal to zero. -/
theorem C8_counterexample :
    compute_profit [0] [.val (1/10)] (1/2) 1000 100 = none := by
  with_unfolding_all decide

/-- C9 (amended): the threshold sweep of compute_all_profits runs over
np.linspace(0.05, 0.95, 50) - not over [0.01, 0.99] - and, for
equal-length inputs whose {0,1}-valued ground truth contains both
classes, produces the non-empty 50-element threshold list paired with a
50-element list of (finite, rational) profits; the sweep is a pure
function of its inputs. -/
theorem C9_sweep_shape (yt : List ℤ) (yp : List PFloat) (ltv cost : ℚ)
    (ht : ∀ x ∈ yt, x = 0 ∨ x = 1) (h0 : (0 : ℤ) ∈ yt) (h1 : (1 : ℤ) ∈ yt)
    (hlen : yt.length = yp.length) :
    ∃ ps, compute_all_profits yt yp ltv cost =
        some (linspace (1/20) (19/20) 50, ps) ∧
      (linspace (1/20) (19/20) 50).length = 50 ∧ ps.length = 50 ∧
      ps ≠ [] := by
  have hok : ∀ u ∈ linspace (1/20) (19/20) 50,
      ∃ r, compute_profit yt yp u ltv cost = some r := by
    intro u _
    exact ⟨_, compute_profit_some hlen
      (sortedLabels_eq01 ht (@classify_subset01 yp u)
        (Or.inl h0) (Or.inl h1))⟩
  rcases compute_all_profits_some hok with ⟨ps, hps, hlen50⟩
  refine ⟨ps, hps, linspace_length .., hlen50, ?_⟩
  intro hnil
  rw [hnil] at hlen50
  simp at hlen50

/-- C9 witness: the sweep succeeds on a concrete valid input. -/
theorem C9_sweep_shape_witness :
    (compute_all_profits [1, 0] [.val (9/10), .val (1/10)] 1000 100).isSome =
      true := by
  obtain ⟨ps, hps, _⟩ := C9_sweep_shape [1, 0] [.val (9/10), .val (1/10)]
    1000 100 (by decide) (by decide) (by decide) (by decide)
  rw [hps]
  rfl

/-- C9 counterexample: on a concrete valid input the sampled thresholds
returned by compute_all_profits start at 0.05 and end at 0.95, so the
sweep is not over [0.01, 0.99] as claimed. -/
theorem C9_counterexample :
    (compute_all_profits [1, 0] [.val (9/10), .val (1/10)] 1000 100).map
      (fun pr => (pr.1.head?, pr.1.getLast?)) =
    some (some (1/20), some (19/20)) := by
  with_unfolding_all decide

/-- C10 (confirmed): for every threshold and business parameters, over
index-aligned {0,1}-valued data containing both classes - the shape of
the arrays the page injects as modelData.yTrue / modelData.yProba - the
injected updateBulkMetrics override computes exactly the four confusion
counts and the profit that the Python compute_profit returns on the
same arrays. -/
theorem C10_bulk_matches_python (yt : List ℤ) (yp : List PFloat)
    (t ltv cost : ℚ) (ht : ∀ x ∈ yt, x = 0 ∨ x = 1)
    (hlen : yt.length = yp.length) (h0 : (0 : ℤ) ∈ yt)
    (h1 : (1 : ℤ) ∈ yt) :
    compute_profit yt yp t ltv cost =
      some ⟨(updateBulkMetrics yt yp t ltv cost).2,
            (updateBulkMetrics yt yp t ltv cost).1.tp,
            (updateBulkMetrics yt yp t ltv cost).1.fp,
            (updateBulkMetrics yt yp t ltv cost).1.fn,
            (updateBulkMetrics yt yp t ltv cost).1.tn⟩ := by
  have hlab := sortedLabels_eq01 ht
    (@classify_subset01 yp t) (Or.inl h0) (Or.inl h1)
  rw [compute_profit_some hlen hlab,
    countPair_classify_one t 1 yt yp, countPair_classify_one t 0 yt yp,
    countPair_classify_zero t 1 yt yp, countPair_classify_zero t 0 yt yp]
  simp only [updateBulkMetrics]
  rw [foldl_bulkStep t (yt.zip yp) ⟨0, 0, 0, 0⟩]
  simp

/-- C10 witness: Python and the injected script agree on the concrete
four-customer scenario. -/
theorem C10_bulk_matches_python_witness :
    compute_profit [1, 0, 1, 0]
        [.val (9/10), .val (8/10), .val (3/10), .val (1/10)] (1/2) 1000 100 =
      some ⟨(updateBulkMetrics [1, 0, 1, 0]
               [.val (9/10), .val (8/10), .val (3/10), .val (1/10)]
               (1/2) 1000 100).2,
            (updateBulkMetrics [1, 0, 1, 0]
               [.val (9/10), .val (8/10), .val (3/10), .val (1/10)]
               (1/2) 1000 100).1.tp,
            (updateBulkMetrics [1, 0, 1, 0]
               [.val (9/10), .val (8/10), .val (3/10), .val (1/10)]
               (1/2) 1000 100).1.fp,
            (updateBulkMetrics [1, 0, 1, 0]
               [.val (9/10), .val (8/10), .val (3/10), .val (1/10)]
               (1/2) 1000 100).1.fn,
            (updateBulkMetrics [1, 0, 1, 0]
               [.val (9/10), .val (8/10), .val (3/10), .val (1/10)]
               (1/2) 1000 100).1.tn⟩ :=
  C10_bulk_matches_python [1, 0, 1, 0]
    [.val (9/10), .val (8/10), .val (3/10), .val (1/10)] (1/2) 1000 100
    (by decide) (by decide) (by decide) (by decide)
